import Mathlib

/-
Verification of the reminder-bot core (src/main.rs) against its
natural-language specification.

The Rust program is shallowly embedded as follows:
- the regex `@(?:(\d{2}\.\d{2}(?:\.\d{4})?)\s+)?(\d{2}:\d{2})` used by
  `parse_event` is embedded as an explicit backtracking matcher over
  `List Char`, reproducing the regex engine's leftmost-match and
  greedy-with-backtracking alternative order;
- `chrono` date/time parsing with the strict layout `%d.%m.%Y %H:%M:%S`
  (as used in `save_event`) is embedded as `parseDateTimeChars`, including
  calendar validation (month lengths, Gregorian leap years); `%d`, `%m`,
  `%H`, `%M` rendering is embedded as two-digit zero-padded output and `%Y`
  as four-digit zero-padded output, which is exact on the value ranges a
  successfully parsed `NaiveDateTime` can carry here (year below 10000);
- the SQLite tables `users` and `events` are embedded as lists of rows
  inside `Store`, with autoincrement primary keys modelled by `nextUserId`
  and `nextEventId`; SQL queries are embedded as list operations: the
  `JOIN ... ON e.user_id = u.id` lookup uses `List.find?` (sound because
  `users.id` is the primary key), `ORDER BY e.event_time` (binary collation
  on TEXT, i.e. lexicographic order) is embedded as `List.insertionSort`
  with the lexicographic `String` order (SQLite fixes only the sortedness
  of the result, which any sort realises);
- the `panic!` in `save_event` (reached when chrono fails to parse the
  composed timestamp) is embedded as the `SaveResult.panicked` outcome: the
  handler produces no reply and persists no event row on that path;
- the notification loop spawned in `main` is embedded twice: as
  `scanner_tick` (its effect on the store: one `get_due_events` followed by
  one `mark_event_sent` per due event) and as `scanner_tick_trace` (the
  order of its lock / send / mark operations, for the locking discipline
  claim). In the source the `MutexGuard` obtained at the top of the loop
  body is dropped only after all sends and marks.
-/

/-! ## Data model (structs of main.rs and rows of the SQLite schema) -/

/-- The parse result of the marker regex: `Event` in main.rs. -/
structure Event where
  text : String
  time : String
  date : Option String
deriving DecidableEq, Repr

/-- A row of the `/events` listing query: `UserEvent` in main.rs. -/
structure UserEvent where
  text : String
  event_time : String
deriving DecidableEq, Repr

/-- A row of the due-events query: `NotificationEvent` in main.rs. -/
structure NotificationEvent where
  telegram_id : Int
  text : String
  event_time : String
deriving DecidableEq, Repr

/-- A row of the `users` table. -/
structure UserRow where
  id : Nat
  telegram_id : Int
  username : Option String
deriving DecidableEq, Repr

/-- A row of the `events` table.  `event_time` holds either the resolved
minute-granularity timestamp or, after delivery, the sentinel string. -/
structure EventRow where
  id : Nat
  user_id : Nat
  text : String
  event_time : String
deriving DecidableEq, Repr

/-- The SQLite database: both tables plus the autoincrement counters. -/
structure Store where
  users : List UserRow
  events : List EventRow
  nextUserId : Nat
  nextEventId : Nat
deriving DecidableEq, Repr

/-- The empty freshly initialised database (`init_db`); SQLite rowids start
at 1. -/
def emptyStore : Store := ⟨[], [], 1, 1⟩

/-- The calendar date carried by `chrono::Local::now()`, as far as
`save_event` consumes it (day, month, year of the local clock). -/
structure LocalDate where
  day : Nat
  month : Nat
  year : Nat
deriving DecidableEq, Repr

/-- A parsed `NaiveDateTime` value. -/
structure DateTime where
  day : Nat
  month : Nat
  year : Nat
  hour : Nat
  minute : Nat
  second : Nat
deriving DecidableEq, Repr

/-! ## Marker parser (`parse_event`, main.rs lines 117-132)

The regex `@(?:(\d{2}\.\d{2}(?:\.\d{4})?)\s+)?(\d{2}:\d{2})` is embedded as
a scanner that tries to match at each position from the left (leftmost
match), where a match attempt at one position tries the alternatives in
the engine's backtracking order: date with year, then date without year,
then no date.  `\d` is embedded as `Char.isDigit` and `\s` as the ASCII
whitespace class (the inputs of interest are ASCII; the Unicode extensions
of `\d`/`\s` are not exercised by any claim). -/

/-- Consume one decimal digit. -/
def takeDigit : List Char → Option (Char × List Char)
  | c :: rest => if c.isDigit then some (c, rest) else none
  | [] => none

/-- Consume one fixed character. -/
def takeChar (ch : Char) : List Char → Option (List Char)
  | c :: rest => if c = ch then some rest else none
  | [] => none

/-- The ASCII part of the regex class `\s`. -/
def isWhitespaceChar (c : Char) : Bool :=
  c = ' ' || c = '\t' || c = '\n' || c = '\r' || c = '\x0b' || c = '\x0c'

/-- `\s+`, greedy.  Greediness is faithful: the token after `\s+` in the
regex starts with `\d`, and no character is both whitespace and a digit,
so the only viable split is the maximal one. -/
def matchWs1 : List Char → Option (List Char)
  | c :: rest =>
    if isWhitespaceChar c then some (rest.dropWhile isWhitespaceChar) else none
  | [] => none

/-- `\d{2}:\d{2}` (capture group 2), returning the captured characters and
the remainder. -/
def matchTime (cs : List Char) : Option (List Char × List Char) := do
  let (h1, cs1) ← takeDigit cs
  let (h2, cs2) ← takeDigit cs1
  let cs3 ← takeChar ':' cs2
  let (m1, cs4) ← takeDigit cs3
  let (m2, cs5) ← takeDigit cs4
  pure ([h1, h2, ':', m1, m2], cs5)

/-- `\d{2}\.\d{2}` (capture group 1 without the optional year). -/
def matchDateShort (cs : List Char) : Option (List Char × List Char) := do
  let (d1, cs1) ← takeDigit cs
  let (d2, cs2) ← takeDigit cs1
  let cs3 ← takeChar '.' cs2
  let (m1, cs4) ← takeDigit cs3
  let (m2, cs5) ← takeDigit cs4
  pure ([d1, d2, '.', m1, m2], cs5)

/-- `\d{2}\.\d{2}\.\d{4}` (capture group 1 with the optional year taken). -/
def matchDateFull (cs : List Char) : Option (List Char × List Char) := do
  let (d1, cs1) ← takeDigit cs
  let (d2, cs2) ← takeDigit cs1
  let cs3 ← takeChar '.' cs2
  let (m1, cs4) ← takeDigit cs3
  let (m2, cs5) ← takeDigit cs4
  let cs6 ← takeChar '.' cs5
  let (y1, cs7) ← takeDigit cs6
  let (y2, cs8) ← takeDigit cs7
  let (y3, cs9) ← takeDigit cs8
  let (y4, cs10) ← takeDigit cs9
  pure ([d1, d2, '.', m1, m2, '.', y1, y2, y3, y4], cs10)

/-- Last backtracking alternative at an `@`: no date, just `\d{2}:\d{2}`. -/
def matchAtTimeOnly (rest : List Char) : Option (Option (List Char) × List Char) :=
  match matchTime rest with
  | some (t, _) => some (none, t)
  | none => none

/-- Second alternative: date without year, whitespace, time; on failure
fall back to the no-date alternative. -/
def matchAtShort (rest : List Char) : Option (Option (List Char) × List Char) :=
  match matchDateShort rest with
  | some (d, r1) =>
    match matchWs1 r1 with
    | some r2 =>
      match matchTime r2 with
      | some (t, _) => some (some d, t)
      | none => matchAtTimeOnly rest
    | none => matchAtTimeOnly rest
  | none => matchAtTimeOnly rest

/-- First alternative: date with year, whitespace, time; on failure fall
back to the short-date alternative. -/
def matchAtFull (rest : List Char) : Option (Option (List Char) × List Char) :=
  match matchDateFull rest with
  | some (d, r1) =>
    match matchWs1 r1 with
    | some r2 =>
      match matchTime r2 with
      | some (t, _) => some (some d, t)
      | none => matchAtShort rest
    | none => matchAtShort rest
  | none => matchAtShort rest

/-- One match attempt of the whole regex at a fixed position: the pattern
begins with a literal `@`. -/
def matchAt (cs : List Char) : Option (Option (List Char) × List Char) :=
  match cs with
  | c :: rest => if c = '@' then matchAtFull rest else none
  | [] => none

/-- `Regex::captures`: the leftmost position with a successful match
attempt wins. -/
def scanMarker : List Char → Option (Option (List Char) × List Char)
  | [] => none
  | c :: rest =>
    match matchAt (c :: rest) with
    | some r => some r
    | none => scanMarker rest

/-- `parse_event` (main.rs lines 117-132): on a regex match, the whole
original text is kept as the payload, group 2 is the time and group 1 the
optional date; no match yields `None`. -/
def parse_event (text : String) : Option Event :=
  match scanMarker text.data with
  | some (dopt, t) => some ⟨text, ⟨t⟩, dopt.map (fun d => ⟨d⟩)⟩
  | none => none

/-! ## Timestamp resolution (`save_event`, main.rs lines 85-115) -/

/-- Two-digit zero-padded decimal rendering (`%d`, `%m`, `%H`, `%M`);
exact for values below 100, which covers every field it is applied to. -/
def pad2 (n : Nat) : List Char :=
  [Nat.digitChar (n / 10), Nat.digitChar (n % 10)]

/-- Four-digit zero-padded decimal rendering (`%Y`); exact for years below
10000, the only years a parsed four-digit value can carry. -/
def pad4 (n : Nat) : List Char :=
  [Nat.digitChar (n / 1000), Nat.digitChar (n / 100 % 10),
   Nat.digitChar (n / 10 % 10), Nat.digitChar (n % 10)]

/-- Gregorian leap year, as validated by `chrono::NaiveDate`. -/
def isLeapYear (y : Nat) : Bool :=
  y % 4 == 0 && (y % 100 != 0 || y % 400 == 0)

/-- Length of a month, as validated by `chrono::NaiveDate`. -/
def daysInMonth (mo y : Nat) : Nat :=
  if mo = 2 then (if isLeapYear y then 29 else 28)
  else if mo = 4 ∨ mo = 6 ∨ mo = 9 ∨ mo = 11 then 30 else 31

/-- Consume exactly two digits as a number. -/
def parse2 (cs : List Char) : Option (Nat × List Char) := do
  let (a, cs1) ← takeDigit cs
  let (b, cs2) ← takeDigit cs1
  pure (10 * (a.toNat - 48) + (b.toNat - 48), cs2)

/-- Consume exactly four digits as a number. -/
def parse4 (cs : List Char) : Option (Nat × List Char) := do
  let (a, cs1) ← parse2 cs
  let (b, cs2) ← parse2 cs1
  pure (100 * a + b, cs2)

/-- `NaiveDateTime::parse_from_str` with the strict layout
`%d.%m.%Y %H:%M:%S`: fixed separators, two-digit fields, four-digit year,
whole input consumed, and calendar validation of the result.  (The code
only ever supplies `:00` seconds, so modelling `%S` as 00-59 is exact on
the reachable inputs.) -/
def parseDateTimeChars (cs : List Char) : Option DateTime := do
  let (d, cs1) ← parse2 cs
  let cs2 ← takeChar '.' cs1
  let (mo, cs3) ← parse2 cs2
  let cs4 ← takeChar '.' cs3
  let (y, cs5) ← parse4 cs4
  let cs6 ← takeChar ' ' cs5
  let (h, cs7) ← parse2 cs6
  let cs8 ← takeChar ':' cs7
  let (mi, cs9) ← parse2 cs8
  let cs10 ← takeChar ':' cs9
  let (s, cs11) ← parse2 cs10
  if cs11 = [] ∧ 1 ≤ mo ∧ mo ≤ 12 ∧ 1 ≤ d ∧ d ≤ daysInMonth mo y ∧
      h ≤ 23 ∧ mi ≤ 59 ∧ s ≤ 59 then
    pure ⟨d, mo, y, h, mi, s⟩
  else none

/-- `.format("%d.%m.%Y %H:%M")` applied to a parsed `NaiveDateTime`. -/
def renderMinute (dt : DateTime) : String :=
  ⟨pad2 dt.day ++ '.' :: pad2 dt.month ++ '.' :: pad4 dt.year ++
    ' ' :: pad2 dt.hour ++ ':' :: pad2 dt.minute⟩

/-- `chrono::Local::now().format("%d.%m.%Y")`. -/
def renderLocalDate (t : LocalDate) : String :=
  ⟨pad2 t.day ++ '.' :: pad2 t.month ++ '.' :: pad4 t.year⟩

/-- The `let event_time = match &event.date` block of `save_event`:
no date uses today, a single-dot date gets the current year appended,
anything else is used as given. -/
def compose_event_time (today : LocalDate) (ev : Event) : String :=
  match ev.date with
  | some date =>
    if date.data.count '.' = 1 then
      date ++ "." ++ toString today.year ++ " " ++ ev.time
    else
      date ++ " " ++ ev.time
  | none => renderLocalDate today ++ " " ++ ev.time

/-- Outcome of `save_event`: either the updated database, or the `panic!`
on the `unwrap_or_else` path (which produces no row and no reply and tears
the handler down). -/
inductive SaveResult
  | panicked (msg : String)
  | ok (store : Store)
deriving DecidableEq, Repr

/-- `INSERT INTO events (user_id, text, event_time) VALUES (?, ?, ?)`. -/
def insertEvent (store : Store) (user_id : Nat) (text : String) (event_time : String) : Store :=
  { store with
      events := store.events ++ [⟨store.nextEventId, user_id, text, event_time⟩],
      nextEventId := store.nextEventId + 1 }

/-- `save_event` (main.rs lines 85-115): compose the timestamp string,
parse it with `:00` appended against `%d.%m.%Y %H:%M:%S` (panicking if that
fails), reformat at minute granularity and insert the row. -/
def save_event (today : LocalDate) (store : Store) (user_id : Nat) (ev : Event) : SaveResult :=
  let event_time := compose_event_time today ev
  match parseDateTimeChars (event_time ++ ":00").data with
  | none => .panicked ("Failed to parse date: " ++ event_time)
  | some dt => .ok (insertEvent store user_id ev.text (renderMinute dt))

/-! ## Store operations (main.rs lines 66-83 and 134-194) -/

/-- `ensure_user_exists` (main.rs lines 66-83): select the row with this
`telegram_id`; if present return its id, otherwise insert a new row and
return `last_insert_rowid`. -/
def ensure_user_exists (store : Store) (telegram_id : Int) (username : Option String) : Nat × Store :=
  match store.users.find? (fun u => u.telegram_id == telegram_id) with
  | some u => (u.id, store)
  | none =>
    (store.nextUserId,
     { store with
         users := store.users ++ [⟨store.nextUserId, telegram_id, username⟩],
         nextUserId := store.nextUserId + 1 })

/-- The `user_id IN (SELECT id FROM users WHERE telegram_id = ?)` /
`JOIN ... WHERE u.telegram_id = ?` condition: the event's owner row carries
this `telegram_id`. -/
def ownedBy (store : Store) (telegram_id : Int) (e : EventRow) : Bool :=
  store.users.any (fun u => u.id == e.user_id && u.telegram_id == telegram_id)

/-- `get_user_events` (main.rs lines 134-152): join on the owner, filter by
`telegram_id`, order by the `event_time` string. -/
def get_user_events (store : Store) (telegram_id : Int) : List UserEvent :=
  List.insertionSort (fun a b => a.event_time ≤ b.event_time)
    ((store.events.filter (ownedBy store telegram_id)).map
      (fun e => ⟨e.text, e.event_time⟩))

/-- The `ORDER BY` relation of the listing query is total. -/
instance : IsTotal UserEvent (fun a b => a.event_time ≤ b.event_time) :=
  ⟨fun a b => le_total a.event_time b.event_time⟩

/-- The `ORDER BY` relation of the listing query is transitive. -/
instance : IsTrans UserEvent (fun a b => a.event_time ≤ b.event_time) :=
  ⟨fun _ _ _ hab hbc => le_trans hab hbc⟩

/-- The `WHERE e.event_time = ?` selection of `get_due_events`. -/
def dueRows (store : Store) (now : String) : List EventRow :=
  store.events.filter (fun e => e.event_time == now)

/-- `get_due_events` (main.rs lines 154-184) with the clock reading passed
in as `now`: select the events whose `event_time` equals `now` exactly and
join each with its owner (`users.id` is the primary key, so `find?` is the
join). -/
def get_due_events (store : Store) (now : String) : List NotificationEvent :=
  (dueRows store now).filterMap
    (fun e => (store.users.find? (fun u => u.id == e.user_id)).map
      (fun u => ⟨u.telegram_id, e.text, e.event_time⟩))

/-- `mark_event_sent` (main.rs lines 186-194):
`UPDATE events SET event_time = 'done' WHERE user_id IN (SELECT id FROM
users WHERE telegram_id = ?) AND event_time = ?`.  Matching zero rows is
still a success. -/
def mark_event_sent (store : Store) (telegram_id : Int) (event_time : String) : Store :=
  { store with
      events := store.events.map (fun e =>
        if ownedBy store telegram_id e && e.event_time == event_time
        then { e with event_time := "done" } else e) }

/-- One iteration of the notification loop (main.rs lines 213-235), as far
as the store is concerned: read the due events once, then mark each of
them sent.  Returns the updated store and the notifications sent. -/
def scanner_tick (store : Store) (now : String) : Store × List NotificationEvent :=
  let due := get_due_events store now
  (due.foldl (fun s e => mark_event_sent s e.telegram_id e.event_time) store, due)

/-! ## Inbound handler (main.rs lines 238-287) -/

/-- What the handler sends back for one message, or the panic outcome on
the `save_event` panic path (no reply is produced there). -/
inductive Reply
  | sent (text : String)
  | panicked (msg : String)
deriving DecidableEq, Repr

/-- Reply for a user with no stored events. -/
def noEventsReply : String := "У вас пока нет запланированных событий"

/-- Header prepended to a non-empty listing. -/
def eventsHeader : String := "Ваши события:\n"

/-- The usage help sent when the marker grammar does not match. -/
def helpReply : String :=
  "Привет! Чтобы создать событие, используйте форматы:\n@ЧЧ:ММ - событие на сегодня\n@ДД.ММ ЧЧ:ММ - событие на конкретную дату\n@ДД.ММ.ГГГГ ЧЧ:ММ - событие на конкретную дату с годом"

/-- Confirmation reply after a successful save. -/
def savedReply (ev : Event) : String :=
  match ev.date with
  | some d =>
    "Сохранено событие на " ++ d ++ " в " ++ ev.time ++ "\nТекст события: " ++ ev.text
  | none =>
    "Сохранено событие на сегодня в " ++ ev.time ++ "\nТекст события: " ++ ev.text

/-- One line of the listing: `format!("{}. {} - {}", i + 1, e.event_time, e.text)`. -/
def listingLine (i : Nat) (e : UserEvent) : String :=
  toString (i + 1) ++ ". " ++ e.event_time ++ " - " ++ e.text

/-- The enumerate/map/join("\n") body of the listing reply. -/
def listingBody (events : List UserEvent) : String :=
  String.intercalate "\n" (events.enum.map (fun p => listingLine p.1 p.2))

/-- The message handler closure of `teloxide::repl` (main.rs lines
238-287): `/events` lists, a marker match ensures the user and saves the
event, anything else gets the help text. -/
def handle_message (today : LocalDate) (store : Store) (telegram_id : Int)
    (username : Option String) (text : String) : Store × Reply :=
  if text = "/events" then
    let events := get_user_events store telegram_id
    if events.isEmpty then (store, .sent noEventsReply)
    else (store, .sent (eventsHeader ++ listingBody events))
  else
    match parse_event text with
    | some event =>
      let r := ensure_user_exists store telegram_id username
      match save_event today r.2 r.1 event with
      | .panicked m => (r.2, .panicked m)
      | .ok store2 => (store2, .sent (savedReply event))
    | none => (store, .sent helpReply)

/-! ## Lock discipline of the notification loop (main.rs lines 212-236)

The loop body acquires the mutex (`db_for_notifications.lock().await`),
calls `get_due_events`, then for each due event awaits `send_message` and
calls `mark_event_sent`, and only then drops the guard and sleeps.  The
order of those operations is embedded as a trace of abstract actions. -/

/-- The externally visible operations of one scanner iteration. -/
inductive ScanAction
  | lockAcquire
  | findDue
  | sendNotification (telegram_id : Int)
  | markDelivered (telegram_id : Int)
  | lockRelease
  | sleep
deriving DecidableEq, Repr

/-- The operation order of one iteration of the loop spawned in `main`,
given the due events it found: lock, query, then send and mark per event,
then release and sleep. -/
def scanner_tick_trace (due : List NotificationEvent) : List ScanAction :=
  [ScanAction.lockAcquire, ScanAction.findDue] ++
    due.flatMap (fun e => [ScanAction.sendNotification e.telegram_id,
                           ScanAction.markDelivered e.telegram_id]) ++
    [ScanAction.lockRelease, ScanAction.sleep]

/-- Whether some notification send in the trace happens while the lock
depth is positive (`depth` is the number of unreleased acquisitions before
the trace). -/
def sendWhileLocked : Nat → List ScanAction → Bool
  | _, [] => false
  | depth, a :: rest =>
    match a with
    | .lockAcquire => sendWhileLocked (depth + 1) rest
    | .lockRelease => sendWhileLocked (depth - 1) rest
    | .sendNotification _ => decide (0 < depth) || sendWhileLocked depth rest
    | _ => sendWhileLocked depth rest

/-! ## Shape predicates used by the claims -/

/-- The shape `\d{2}:\d{2}` of a captured time. -/
def timeShapeChars (l : List Char) : Bool :=
  match l with
  | [a, b, c, d, e] =>
    a.isDigit && b.isDigit && c = ':' && d.isDigit && e.isDigit
  | _ => false

/-- The shape `\d{2}:\d{2}` of a captured time string. -/
def timeShape (s : String) : Bool := timeShapeChars s.data

/-- The shape `\d{2}\.\d{2}` or `\d{2}\.\d{2}\.\d{4}` of a captured date. -/
def dateShapeChars (l : List Char) : Bool :=
  match l with
  | [a, b, c, d, e] =>
    a.isDigit && b.isDigit && c = '.' && d.isDigit && e.isDigit
  | [a, b, c, d, e, f, g, h, i, j] =>
    a.isDigit && b.isDigit && c = '.' && d.isDigit && e.isDigit &&
      f = '.' && g.isDigit && h.isDigit && i.isDigit && j.isDigit
  | _ => false

/-- The shape `\d{2}\.\d{2}` or `\d{2}\.\d{2}\.\d{4}` of a date string. -/
def dateShape (s : String) : Bool := dateShapeChars s.data

/-- A string of the minute-granularity form `DD.MM.YYYY HH:MM`. -/
def isMinuteFormat (s : String) : Bool :=
  match s.data with
  | [d1, d2, c1, m1, m2, c2, y1, y2, y3, y4, c3, h1, h2, c4, n1, n2] =>
    d1.isDigit && d2.isDigit && c1 = '.' && m1.isDigit && m2.isDigit &&
      c2 = '.' && y1.isDigit && y2.isDigit && y3.isDigit && y4.isDigit &&
      c3 = ' ' && h1.isDigit && h2.isDigit && c4 = ':' && n1.isDigit && n2.isDigit
  | _ => false

/-- A calendar-valid local date. -/
def validDate (t : LocalDate) : Prop :=
  1 ≤ t.month ∧ t.month ≤ 12 ∧ 1 ≤ t.day ∧ t.day ≤ daysInMonth t.month t.year

instance (t : LocalDate) : Decidable (validDate t) := by
  unfold validDate; infer_instance

/-- Number of event rows of the user with internal id `uid` whose
`event_time` field equals `ts` (used to count pending rows at a timestamp,
and delivered rows via `ts = "done"`). -/
def countAt (store : Store) (uid : Nat) (ts : String) : Nat :=
  store.events.countP (fun e => e.user_id == uid && e.event_time == ts)

/-! ## Shared lemmas -/

/-- `ensure_user_exists` never touches the `events` table. -/
theorem ensure_user_exists_events (store : Store) (tid : Int) (uname : Option String) :
    (ensure_user_exists store tid uname).2.events = store.events := by
  unfold ensure_user_exists
  cases store.users.find? (fun u => u.telegram_id == tid) <;> rfl

/-- Membership in the exact-match selection of the due query. -/
theorem mem_dueRows (store : Store) (now : String) (e : EventRow) :
    e ∈ dueRows store now ↔ e ∈ store.events ∧ e.event_time = now := by
  simp [dueRows, List.mem_filter]

/-- The joined projection of the due query keeps exactly the selected rows
when every selected row has an owner. -/
theorem filterMap_join_eq_map (users : List UserRow) (l : List EventRow)
    (h : ∀ e ∈ l, ∃ u ∈ users, u.id = e.user_id) :
    (l.filterMap (fun e => (users.find? (fun u => u.id == e.user_id)).map
        (fun u => (⟨u.telegram_id, e.text, e.event_time⟩ : NotificationEvent)))).map
      (fun n => (n.text, n.event_time)) = l.map (fun e => (e.text, e.event_time)) := by
  induction l with
  | nil => rfl
  | cons e l ih =>
    obtain ⟨u, hu, hid⟩ := h e (by simp)
    cases hfind : users.find? (fun v => v.id == e.user_id) with
    | none =>
      rw [List.find?_eq_none] at hfind
      have hcontra := hfind u hu
      simp only [beq_iff_eq] at hcontra
      exact absurd hid hcontra
    | some v =>
      simp only [List.filterMap_cons, hfind, Option.map_some', List.map_cons]
      exact congrArg _ (ih (fun x hx => h x (by simp [hx])))

/-! ## Claim C1 -/

/-- Claim C1 (status: code_bug).  The spec demands local recovery with an
error reply for a syntactically matching marker whose date is
calendar-invalid, but on `"@31.02.2024 10:00"` the code's `save_event`
reaches the `unwrap_or_else(|_| panic!(..))` path: the marker does match
the grammar, the handler ends in the panic outcome (no error reply is
produced), and no event row is persisted. -/
theorem c1_invalid_date_panics (today : LocalDate) (store : Store) (tid : Int)
    (uname : Option String) :
    parse_event "@31.02.2024 10:00" =
      some ⟨"@31.02.2024 10:00", "10:00", some "31.02.2024"⟩ ∧
    (handle_message today store tid uname "@31.02.2024 10:00").2 =
      .panicked "Failed to parse date: 31.02.2024 10:00" ∧
    (handle_message today store tid uname "@31.02.2024 10:00").1.events = store.events := by
  refine ⟨rfl, rfl, ?_⟩
  show (ensure_user_exists store tid uname).2.events = store.events
  exact ensure_user_exists_events store tid uname

/-! ## Claim C2 -/

/-- Claim C2 (status: code_bug).  The spec requires the store's exclusive
section to be released before the outbound notification send, but in the
notification loop of `main` the mutex guard is dropped only after all
sends and marks: on every tick with at least one due event, some send
happens while the lock is held. -/
theorem c2_lock_held_across_send (due : List NotificationEvent) (h : due ≠ []) :
    sendWhileLocked 0 (scanner_tick_trace due) = true := by
  cases due with
  | nil => exact absurd rfl h
  | cons e rest => simp [scanner_tick_trace, sendWhileLocked]

/-- Witness for C2 at a concrete tick with one due event. -/
theorem c2_lock_held_across_send_witness :
    sendWhileLocked 0 (scanner_tick_trace [⟨555, "a", "01.05.2024 09:30"⟩]) = true :=
  c2_lock_held_across_send [⟨555, "a", "01.05.2024 09:30"⟩] (by decide)

/-! ## Claim C8 -/

/-- Claim C8 (status: confirmed).  `ensure_user_exists` is idempotent:
calling it twice with the same external id returns the same internal id,
the second call leaves the store unchanged, and (given the backend's
uniqueness invariant on `telegram_id`, i.e. at most one matching row)
exactly one user row with that external id remains. -/
theorem c8_ensure_user_idempotent (store : Store) (tid : Int) (n1 n2 : Option String) :
    (ensure_user_exists (ensure_user_exists store tid n1).2 tid n2).1 =
      (ensure_user_exists store tid n1).1 ∧
    (ensure_user_exists (ensure_user_exists store tid n1).2 tid n2).2 =
      (ensure_user_exists store tid n1).2 ∧
    (store.users.countP (fun u => u.telegram_id == tid) ≤ 1 →
      ((ensure_user_exists (ensure_user_exists store tid n1).2 tid n2).2).users.countP
        (fun u => u.telegram_id == tid) = 1) := by
  have hfound : ∀ (s : Store) (u : UserRow) (nm : Option String),
      s.users.find? (fun v => v.telegram_id == tid) = some u →
      ensure_user_exists s tid nm = (u.id, s) := by
    intro s u nm h
    unfold ensure_user_exists; rw [h]
  cases hfind : store.users.find? (fun u => u.telegram_id == tid) with
  | some u =>
    have h1 := hfound store u n1 hfind
    have h2 := hfound store u n2 hfind
    refine ⟨by rw [h1, h2], by rw [h1, h2], fun hle => ?_⟩
    rw [h1, h2]
    show store.users.countP (fun u => u.telegram_id == tid) = 1
    have hmem : u ∈ store.users := List.mem_of_find?_eq_some hfind
    have hpu := List.find?_some hfind
    have hpos : 0 < store.users.countP (fun u => u.telegram_id == tid) :=
      List.countP_pos_iff.mpr ⟨u, hmem, hpu⟩
    omega
  | none =>
    have hzero : store.users.countP (fun u => u.telegram_id == tid) = 0 :=
      List.countP_eq_zero.mpr (by simpa using List.find?_eq_none.mp hfind)
    have h1 : ensure_user_exists store tid n1 =
        (store.nextUserId,
         { store with
             users := store.users ++
               [{ id := store.nextUserId, telegram_id := tid, username := n1 }],
             nextUserId := store.nextUserId + 1 }) := by
      unfold ensure_user_exists; rw [hfind]
    have hfind2 : List.find? (fun u : UserRow => u.telegram_id == tid)
        (store.users ++ [{ id := store.nextUserId, telegram_id := tid, username := n1 }]) =
        some { id := store.nextUserId, telegram_id := tid, username := n1 } := by
      rw [List.find?_append, hfind]; simp
    have h2 : ensure_user_exists (ensure_user_exists store tid n1).2 tid n2 =
        (store.nextUserId, (ensure_user_exists store tid n1).2) := by
      rw [h1]
      exact hfound
        { store with
            users := store.users ++
              [{ id := store.nextUserId, telegram_id := tid, username := n1 }],
            nextUserId := store.nextUserId + 1 }
        { id := store.nextUserId, telegram_id := tid, username := n1 } n2 hfind2
    refine ⟨by rw [h2, h1], by rw [h2], fun _ => ?_⟩
    rw [h2, h1]
    simp [List.countP_append, hzero, List.countP_cons]

/-- Witness for C8 starting from the empty store. -/
theorem c8_ensure_user_idempotent_witness :
    ((ensure_user_exists (ensure_user_exists emptyStore 42 none).2 42 none).2).users.countP
      (fun u => u.telegram_id == 42) = 1 :=
  (c8_ensure_user_idempotent emptyStore 42 none none).2.2 (by decide)

/-! ## Claim C4 -/

/-- Claim C4 (status: confirmed).  The due query selects exactly the
stored events whose timestamp string equals `now` (string equality at
minute granularity); under the foreign-key invariant the joined output is
exactly those rows; and an event whose timestamp differs from a given scan
instant is not returned by that scan — so a missed minute is never
returned by any later call. -/
theorem c4_find_due_exact_match (store : Store) (now : String) :
    (∀ e : EventRow, e ∈ dueRows store now ↔ e ∈ store.events ∧ e.event_time = now) ∧
    ((∀ e ∈ store.events, ∃ u ∈ store.users, u.id = e.user_id) →
      (get_due_events store now).map (fun n => (n.text, n.event_time)) =
        (dueRows store now).map (fun e => (e.text, e.event_time))) ∧
    (∀ (later : String) (e : EventRow), e ∈ store.events → e.event_time ≠ later →
      e ∉ dueRows store later) := by
  refine ⟨fun e => mem_dueRows store now e, fun hfk => ?_, fun later e _ hne hmem => ?_⟩
  · exact filterMap_join_eq_map store.users (dueRows store now)
      (fun e he => hfk e ((mem_dueRows store now e).mp he).1)
  · exact hne ((mem_dueRows store later e).mp hmem).2

/-- Witness for C4 at a concrete one-user, one-event store. -/
theorem c4_find_due_exact_match_witness :
    (get_due_events ⟨[⟨1, 7, none⟩], [⟨1, 1, "a", "01.05.2024 09:30"⟩], 2, 2⟩
        "01.05.2024 09:30").map (fun n => (n.text, n.event_time)) =
      (dueRows ⟨[⟨1, 7, none⟩], [⟨1, 1, "a", "01.05.2024 09:30"⟩], 2, 2⟩
        "01.05.2024 09:30").map (fun e => (e.text, e.event_time)) :=
  (c4_find_due_exact_match _ _).2.1 (by decide)

/-! ## Scanner-tick machinery (shared by C3 and C7) -/

/-- Marking rows never touches the `users` table. -/
theorem mark_event_sent_users (store : Store) (tid : Int) (ts : String) :
    (mark_event_sent store tid ts).users = store.users := rfl

/-- The `events` table after one `mark_event_sent`. -/
theorem mark_event_sent_events (store : Store) (tid : Int) (ts : String) :
    (mark_event_sent store tid ts).events = store.events.map (fun e =>
      if ownedBy store tid e && e.event_time == ts
      then { e with event_time := "done" } else e) := rfl

/-- Ownership only reads the `users` table, which marking preserves. -/
theorem ownedBy_mark_event_sent (store : Store) (tid2 : Int) (ts : String)
    (tid : Int) (e : EventRow) :
    ownedBy (mark_event_sent store tid2 ts) tid e = ownedBy store tid e := rfl

/-- Every notification produced by the due query carries `now` as its
timestamp. -/
theorem get_due_events_time (store : Store) (now : String) :
    ∀ n ∈ get_due_events store now, n.event_time = now := by
  intro n hn
  simp only [get_due_events, List.mem_filterMap] at hn
  obtain ⟨e, he, hfm⟩ := hn
  have het := ((mem_dueRows store now e).mp he).2
  cases hfind : store.users.find? (fun u => u.id == e.user_id) with
  | none => rw [hfind] at hfm; cases hfm
  | some u =>
    rw [hfind] at hfm
    simp only [Option.map_some', Option.some.injEq] at hfm
    rw [← hfm]
    exact het

/-- Construction of a member of the due query output. -/
theorem notif_mem_get_due_events (store : Store) (now : String) (e : EventRow) (u : UserRow)
    (he : e ∈ store.events) (het : e.event_time = now)
    (hfind : store.users.find? (fun v => v.id == e.user_id) = some u) :
    (⟨u.telegram_id, e.text, e.event_time⟩ : NotificationEvent) ∈ get_due_events store now := by
  simp only [get_due_events, List.mem_filterMap]
  exact ⟨e, (mem_dueRows store now e).mpr ⟨he, het⟩, by rw [hfind]; rfl⟩

/-- The owner row found by the join witnesses the ownership condition of
the `UPDATE` statement. -/
theorem ownedBy_of_find (store : Store) (e : EventRow) (u : UserRow)
    (hfind : store.users.find? (fun v => v.id == e.user_id) = some u) :
    ownedBy store u.telegram_id e = true := by
  unfold ownedBy
  refine List.any_eq_true.mpr ⟨u, List.mem_of_find?_eq_some hfind, ?_⟩
  have hp := List.find?_some hfind
  simp only [beq_iff_eq] at hp
  simp [hp]

/-- Folding `mark_event_sent` over notifications that all carry timestamp
`now` rewrites the `events` table in one pass: a row is marked when its
timestamp is `now` and some processed notification names its owner. -/
theorem foldl_mark_events (now : String) (hnow : now ≠ "done") :
    ∀ (L : List NotificationEvent) (store : Store), (∀ n ∈ L, n.event_time = now) →
    L.foldl (fun s n => mark_event_sent s n.telegram_id n.event_time) store =
      { store with events := store.events.map (fun e =>
          if e.event_time == now && L.any (fun n => ownedBy store n.telegram_id e) then
            { e with event_time := "done" } else e) } := by
  have hdone : (("done" : String) == now) = false :=
    beq_eq_false_iff_ne.mpr (Ne.symm hnow)
  intro L
  induction L with
  | nil =>
    intro store _
    simp
  | cons n L ih =>
    intro store hL
    have hn : n.event_time = now := hL n (by simp)
    have hL2 : ∀ m ∈ L, m.event_time = now := fun m hm => hL m (by simp [hm])
    rw [List.foldl_cons, ih (mark_event_sent store n.telegram_id n.event_time) hL2]
    congr 1
    rw [mark_event_sent_events]
    rw [List.map_map]
    refine List.map_congr_left fun e _ => ?_
    simp only [Function.comp_apply, ownedBy_mark_event_sent, hn, List.any_cons]
    by_cases hA : ownedBy store n.telegram_id e = true
    · by_cases hB : (e.event_time == now) = true
      · simp [hA, hB, hdone]
      · simp [hA, eq_false_of_ne_true hB]
    · by_cases hB : (e.event_time == now) = true
      · simp [eq_false_of_ne_true hA, hB]
      · simp [eq_false_of_ne_true hA, eq_false_of_ne_true hB]

/-- The effect of one scanner iteration on the store. -/
theorem scanner_tick_store (store : Store) (now : String) (hnow : now ≠ "done") :
    (scanner_tick store now).1 =
      { store with events := store.events.map (fun e =>
          if e.event_time == now &&
             (get_due_events store now).any (fun n => ownedBy store n.telegram_id e) then
            { e with event_time := "done" } else e) } :=
  foldl_mark_events now hnow (get_due_events store now) store (get_due_events_time store now)

/-- Folding `mark_event_sent` never touches the `users` table. -/
theorem foldl_mark_users :
    ∀ (L : List NotificationEvent) (store : Store),
    (L.foldl (fun s n => mark_event_sent s n.telegram_id n.event_time) store).users = store.users := by
  intro L
  induction L with
  | nil => intro store; rfl
  | cons n L ih =>
    intro store
    rw [List.foldl_cons, ih]
    rfl

/-- The `users` table after one scanner iteration. -/
theorem scanner_tick_users (store : Store) (now : String) :
    (scanner_tick store now).1.users = store.users :=
  foldl_mark_users (get_due_events store now) store

/-- The `events` table after one scanner iteration. -/
theorem scanner_tick_events (store : Store) (now : String) (hnow : now ≠ "done") :
    (scanner_tick store now).1.events = store.events.map (fun e =>
      if e.event_time == now &&
         (get_due_events store now).any (fun n => ownedBy store n.telegram_id e) then
        { e with event_time := "done" } else e) := by
  rw [scanner_tick_store store now hnow]

/-- Splitting a count over a pointwise-disjoint disjunction. -/
theorem countP_and_or_disjoint {α : Type} (a b c : α → Bool) :
    ∀ (l : List α), (∀ x ∈ l, ¬(b x = true ∧ c x = true)) →
    l.countP (fun x => a x && (b x || c x)) =
      l.countP (fun x => a x && b x) + l.countP (fun x => a x && c x) := by
  intro l
  induction l with
  | nil => intro _; rfl
  | cons x l ih =>
    intro h
    have hx := h x (by simp)
    have hrest : ∀ y ∈ l, ¬(b y = true ∧ c y = true) := fun y hy => h y (by simp [hy])
    simp only [List.countP_cons]
    rw [ih hrest]
    by_cases hb : b x = true
    · have hcf : c x = false := eq_false_of_ne_true (fun hcx => hx ⟨hb, hcx⟩)
      cases ha : a x <;> simp [ha, hb, hcf] <;> omega
    · cases ha : a x <;> simp [ha, eq_false_of_ne_true hb] <;> omega

/-! ## Claim C3 -/

/-- Claim C3 (status: confirmed).  A delivered event (timestamp field
overwritten with the sentinel) is never selected by the due query for any
`now` of the minute-granularity form, and a second scanner iteration at the
same `now` finds zero due events. -/
theorem c3_delivered_terminal (store : Store) (now : String)
    (hfmt : isMinuteFormat now = true) :
    (∀ e ∈ store.events, e.event_time = "done" → e ∉ dueRows store now) ∧
    get_due_events (scanner_tick store now).1 now = [] := by
  have hnow : now ≠ "done" := by
    intro h
    rw [h] at hfmt
    exact absurd hfmt (by decide)
  constructor
  · intro e _ hdone hmem
    have h2 := ((mem_dueRows store now e).mp hmem).2
    rw [hdone] at h2
    exact hnow h2.symm
  · unfold get_due_events dueRows
    rw [scanner_tick_events store now hnow, scanner_tick_users store now]
    refine List.filterMap_eq_nil_iff.mpr fun e1 he1 => ?_
    obtain ⟨hmem, htime⟩ := List.mem_filter.mp he1
    obtain ⟨e, he, heq⟩ := List.mem_map.mp hmem
    by_cases hc : (e.event_time == now &&
        (get_due_events store now).any (fun n => ownedBy store n.telegram_id e)) = true
    · rw [if_pos hc] at heq
      rw [← heq] at htime
      simp only [beq_iff_eq] at htime
      exact absurd htime.symm hnow
    · rw [if_neg hc] at heq
      rw [← heq] at htime ⊢
      cases hfind : store.users.find? (fun u => u.id == e.user_id) with
      | none => rfl
      | some u =>
        exfalso
        apply hc
        have hpt : e.event_time = now := by simpa using htime
        have hin := notif_mem_get_due_events store now e u he hpt hfind
        have hown := ownedBy_of_find store e u hfind
        simp only [hpt, beq_self_eq_true, Bool.true_and]
        exact List.any_eq_true.mpr ⟨_, hin, hown⟩

/-- Witness for C3 at a concrete store with one due event. -/
theorem c3_delivered_terminal_witness :
    get_due_events
      (scanner_tick ⟨[⟨1, 555, none⟩], [⟨1, 1, "a", "01.05.2024 09:30"⟩], 2, 2⟩
        "01.05.2024 09:30").1 "01.05.2024 09:30" = [] :=
  (c3_delivered_terminal ⟨[⟨1, 555, none⟩], [⟨1, 1, "a", "01.05.2024 09:30"⟩], 2, 2⟩
    "01.05.2024 09:30" (by decide)).2

/-! ## Claim C7 -/

/-- Claim C7 (status: confirmed).  `mark_event_sent` transitions every
event whose owner and timestamp both match to the sentinel state, is a
no-op (not an error) when zero rows match, and — the coarseness property —
a single scanner iteration observing minute `ts` leaves zero rows of a
user pending at `ts`, converting them all (two or more included) into
sentinel rows. -/
theorem c7_mark_delivered (store : Store) (tid : Int) (ts : String) (uid : Nat) (u : UserRow) :
    (∀ e ∈ store.events, ownedBy store tid e = true → e.event_time = ts →
        { e with event_time := "done" } ∈ (mark_event_sent store tid ts).events) ∧
    (store.events.countP (fun e => ownedBy store tid e && e.event_time == ts) = 0 →
        mark_event_sent store tid ts = store) ∧
    (store.users.find? (fun v => v.id == uid) = some u → ts ≠ "done" →
        countAt (scanner_tick store ts).1 uid ts = 0 ∧
        countAt (scanner_tick store ts).1 uid "done" =
          countAt store uid "done" + countAt store uid ts) := by
  refine ⟨fun e he hown het => ?_, fun hzero => ?_, fun hfind hts => ?_⟩
  · rw [mark_event_sent_events]
    have hcond : (ownedBy store tid e && e.event_time == ts) = true := by simp [hown, het]
    exact List.mem_map.mpr ⟨e, he, by rw [if_pos hcond]⟩
  · have hall := List.countP_eq_zero.mp hzero
    have hev : store.events.map (fun e =>
        if ownedBy store tid e && e.event_time == ts
        then { e with event_time := "done" } else e) = store.events := by
      have h1 : store.events.map (fun e =>
          if ownedBy store tid e && e.event_time == ts
          then { e with event_time := "done" } else e) = store.events.map id :=
        List.map_congr_left fun e he => by rw [if_neg (hall e he)]; rfl
      rw [h1, List.map_id]
    unfold mark_event_sent
    rw [hev]
  · have hev := scanner_tick_events store ts hts
    have hmatch : ∀ e ∈ store.events, e.user_id = uid → e.event_time = ts →
        (e.event_time == ts &&
          (get_due_events store ts).any (fun n => ownedBy store n.telegram_id e)) = true := by
      intro e he hpu hpt
      have hfind1 : store.users.find? (fun v => v.id == e.user_id) = some u := by
        rw [hpu]; exact hfind
      have hin := notif_mem_get_due_events store ts e u he hpt hfind1
      have hown := ownedBy_of_find store e u hfind1
      simp only [hpt, beq_self_eq_true, Bool.true_and]
      exact List.any_eq_true.mpr ⟨_, hin, hown⟩
    constructor
    · unfold countAt
      rw [hev, List.countP_map]
      refine List.countP_eq_zero.mpr fun e he => ?_
      intro hp
      simp only [Function.comp_apply] at hp
      by_cases hc : (e.event_time == ts &&
          (get_due_events store ts).any (fun n => ownedBy store n.telegram_id e)) = true
      · rw [if_pos hc] at hp
        simp only [Bool.and_eq_true, beq_iff_eq] at hp
        exact hts hp.2.symm
      · rw [if_neg hc] at hp
        simp only [Bool.and_eq_true, beq_iff_eq] at hp
        exact hc (hmatch e he hp.1 hp.2)
    · unfold countAt
      rw [hev, List.countP_map]
      have hcongr : store.events.countP ((fun e => e.user_id == uid && e.event_time == "done") ∘
          (fun e => if e.event_time == ts &&
              (get_due_events store ts).any (fun n => ownedBy store n.telegram_id e) then
            { e with event_time := "done" } else e)) =
          store.events.countP (fun e =>
            e.user_id == uid && (e.event_time == "done" || e.event_time == ts)) := by
        refine List.countP_congr fun e he => ?_
        simp only [Function.comp_apply]
        by_cases hc : (e.event_time == ts &&
            (get_due_events store ts).any (fun n => ownedBy store n.telegram_id e)) = true
        · have hc2 := hc
          simp only [Bool.and_eq_true] at hc2
          have hpt := hc2.1
          rw [if_pos hc]
          simp only [beq_iff_eq] at hpt
          simp [hpt]
        · rw [if_neg hc]
          by_cases hpu : (e.user_id == uid) = true
          · by_cases hpt : (e.event_time == ts) = true
            · exact absurd (hmatch e he (by simpa using hpu) (by simpa using hpt)) hc
            · simp [hpu, eq_false_of_ne_true hpt]
          · simp [eq_false_of_ne_true hpu]
      rw [hcongr]
      rw [countP_and_or_disjoint (fun e => e.user_id == uid)
        (fun e => e.event_time == "done") (fun e => e.event_time == ts) store.events
        (fun e _ hbc => hts (by
          obtain ⟨hb, hc2⟩ := hbc
          simp only [beq_iff_eq] at hb hc2
          rw [← hc2, hb]))]

/-- Witness for C7: a user with two pending events at the same minute has
both converted by one tick. -/
theorem c7_mark_delivered_witness :
    countAt (scanner_tick ⟨[⟨1, 555, none⟩],
        [⟨1, 1, "a", "01.05.2024 09:30"⟩, ⟨2, 1, "b", "01.05.2024 09:30"⟩], 2, 3⟩
      "01.05.2024 09:30").1 1 "01.05.2024 09:30" = 0 ∧
    countAt (scanner_tick ⟨[⟨1, 555, none⟩],
        [⟨1, 1, "a", "01.05.2024 09:30"⟩, ⟨2, 1, "b", "01.05.2024 09:30"⟩], 2, 3⟩
      "01.05.2024 09:30").1 1 "done" =
      countAt ⟨[⟨1, 555, none⟩],
        [⟨1, 1, "a", "01.05.2024 09:30"⟩, ⟨2, 1, "b", "01.05.2024 09:30"⟩], 2, 3⟩ 1 "done" +
      countAt ⟨[⟨1, 555, none⟩],
        [⟨1, 1, "a", "01.05.2024 09:30"⟩, ⟨2, 1, "b", "01.05.2024 09:30"⟩], 2, 3⟩ 1
        "01.05.2024 09:30" :=
  (c7_mark_delivered ⟨[⟨1, 555, none⟩],
      [⟨1, 1, "a", "01.05.2024 09:30"⟩, ⟨2, 1, "b", "01.05.2024 09:30"⟩], 2, 3⟩
    555 "01.05.2024 09:30" 1 ⟨1, 555, none⟩).2.2 (by decide) (by decide)

/-! ## Marker-parser lemmas (shared by C6 and C10) -/

/-- Inversion of a single-digit consumption. -/
theorem takeDigit_eq_some {cs : List Char} {c : Char} {r : List Char}
    (h : takeDigit cs = some (c, r)) : cs = c :: r ∧ c.isDigit = true := by
  cases cs with
  | nil => cases h
  | cons x rest =>
    simp only [takeDigit] at h
    split at h
    · obtain ⟨rfl, rfl⟩ := Prod.mk.injEq .. ▸ Option.some.injEq .. ▸ h
      exact ⟨rfl, by assumption⟩
    · cases h

/-- Inversion of a fixed-character consumption. -/
theorem takeChar_eq_some {ch : Char} {cs : List Char} {r : List Char}
    (h : takeChar ch cs = some r) : cs = ch :: r := by
  cases cs with
  | nil => cases h
  | cons x rest =>
    simp only [takeChar] at h
    split at h
    · cases h; subst_vars; rfl
    · cases h

/-- A successful time match captures exactly the shape of group 2 and
consumes exactly the captured prefix. -/
theorem matchTime_eq_some {cs : List Char} {t r : List Char}
    (h : matchTime cs = some (t, r)) : timeShapeChars t = true ∧ cs = t ++ r := by
  unfold matchTime at h
  simp only [bind, Option.bind_eq_some, pure, Option.some.injEq] at h
  obtain ⟨⟨c1, r1⟩, e1, ⟨c2, r2⟩, e2, r3, e3, ⟨c4, r4⟩, e4, ⟨c5, r5⟩, e5, h⟩ := h
  obtain ⟨rfl, hd1⟩ := takeDigit_eq_some e1
  obtain ⟨rfl, hd2⟩ := takeDigit_eq_some e2
  have := takeChar_eq_some e3
  subst this
  obtain ⟨rfl, hd4⟩ := takeDigit_eq_some e4
  obtain ⟨rfl, hd5⟩ := takeDigit_eq_some e5
  obtain ⟨rfl, rfl⟩ := Prod.mk.injEq .. ▸ h
  exact ⟨by simp [timeShapeChars, hd1, hd2, hd4, hd5], by simp⟩

/-- A successful short-date match captures the `DD.MM` shape. -/
theorem matchDateShort_eq_some {cs : List Char} {d r : List Char}
    (h : matchDateShort cs = some (d, r)) : dateShapeChars d = true ∧ cs = d ++ r := by
  unfold matchDateShort at h
  simp only [bind, Option.bind_eq_some, pure, Option.some.injEq] at h
  obtain ⟨⟨c1, r1⟩, e1, ⟨c2, r2⟩, e2, r3, e3, ⟨c4, r4⟩, e4, ⟨c5, r5⟩, e5, h⟩ := h
  obtain ⟨rfl, hd1⟩ := takeDigit_eq_some e1
  obtain ⟨rfl, hd2⟩ := takeDigit_eq_some e2
  have := takeChar_eq_some e3
  subst this
  obtain ⟨rfl, hd4⟩ := takeDigit_eq_some e4
  obtain ⟨rfl, hd5⟩ := takeDigit_eq_some e5
  obtain ⟨rfl, rfl⟩ := Prod.mk.injEq .. ▸ h
  exact ⟨by simp [dateShapeChars, hd1, hd2, hd4, hd5], by simp⟩

/-- A successful full-date match captures the `DD.MM.YYYY` shape. -/
theorem matchDateFull_eq_some {cs : List Char} {d r : List Char}
    (h : matchDateFull cs = some (d, r)) : dateShapeChars d = true ∧ cs = d ++ r := by
  unfold matchDateFull at h
  simp only [bind, Option.bind_eq_some, pure, Option.some.injEq] at h
  obtain ⟨⟨c1, r1⟩, e1, ⟨c2, r2⟩, e2, r3, e3, ⟨c4, r4⟩, e4, ⟨c5, r5⟩, e5,
    r6, e6, ⟨c7, r7⟩, e7, ⟨c8, r8⟩, e8, ⟨c9, r9⟩, e9, ⟨c10, r10⟩, e10, h⟩ := h
  obtain ⟨rfl, hd1⟩ := takeDigit_eq_some e1
  obtain ⟨rfl, hd2⟩ := takeDigit_eq_some e2
  have := takeChar_eq_some e3
  subst this
  obtain ⟨rfl, hd4⟩ := takeDigit_eq_some e4
  obtain ⟨rfl, hd5⟩ := takeDigit_eq_some e5
  have := takeChar_eq_some e6
  subst this
  obtain ⟨rfl, hd7⟩ := takeDigit_eq_some e7
  obtain ⟨rfl, hd8⟩ := takeDigit_eq_some e8
  obtain ⟨rfl, hd9⟩ := takeDigit_eq_some e9
  obtain ⟨rfl, hd10⟩ := takeDigit_eq_some e10
  obtain ⟨rfl, rfl⟩ := Prod.mk.injEq .. ▸ h
  exact ⟨by simp [dateShapeChars, hd1, hd2, hd4, hd5, hd7, hd8, hd9, hd10], by simp⟩

/-- Shapes produced by the no-date alternative. -/
theorem matchAtTimeOnly_shape {rest : List Char} {dopt : Option (List Char)} {t : List Char}
    (h : matchAtTimeOnly rest = some (dopt, t)) :
    timeShapeChars t = true ∧ ∀ d, dopt = some d → dateShapeChars d = true := by
  unfold matchAtTimeOnly at h
  cases e1 : matchTime rest with
  | none => rw [e1] at h; cases h
  | some p =>
    obtain ⟨t2, r2⟩ := p
    rw [e1] at h
    simp only [Option.some.injEq, Prod.mk.injEq] at h
    obtain ⟨rfl, rfl⟩ := h
    exact ⟨(matchTime_eq_some e1).1, fun d hd => by cases hd⟩

/-- Shapes produced by the short-date alternative. -/
theorem matchAtShort_shape {rest : List Char} {dopt : Option (List Char)} {t : List Char}
    (h : matchAtShort rest = some (dopt, t)) :
    timeShapeChars t = true ∧ ∀ d, dopt = some d → dateShapeChars d = true := by
  unfold matchAtShort at h
  cases e1 : matchDateShort rest with
  | none => rw [e1] at h; exact matchAtTimeOnly_shape h
  | some p =>
    obtain ⟨d, r1⟩ := p
    rw [e1] at h
    dsimp only at h
    cases e2 : matchWs1 r1 with
    | none => rw [e2] at h; exact matchAtTimeOnly_shape h
    | some r2 =>
      rw [e2] at h
      dsimp only at h
      cases e3 : matchTime r2 with
      | none => rw [e3] at h; exact matchAtTimeOnly_shape h
      | some q =>
        obtain ⟨t2, rest2⟩ := q
        rw [e3] at h
        dsimp only at h
        simp only [Option.some.injEq, Prod.mk.injEq] at h
        obtain ⟨rfl, rfl⟩ := h
        refine ⟨(matchTime_eq_some e3).1, fun d2 hd2 => ?_⟩
        injection hd2 with hh
        subst hh
        exact (matchDateShort_eq_some e1).1

/-- Shapes produced by the full-date alternative. -/
theorem matchAtFull_shape {rest : List Char} {dopt : Option (List Char)} {t : List Char}
    (h : matchAtFull rest = some (dopt, t)) :
    timeShapeChars t = true ∧ ∀ d, dopt = some d → dateShapeChars d = true := by
  unfold matchAtFull at h
  cases e1 : matchDateFull rest with
  | none => rw [e1] at h; exact matchAtShort_shape h
  | some p =>
    obtain ⟨d, r1⟩ := p
    rw [e1] at h
    dsimp only at h
    cases e2 : matchWs1 r1 with
    | none => rw [e2] at h; exact matchAtShort_shape h
    | some r2 =>
      rw [e2] at h
      dsimp only at h
      cases e3 : matchTime r2 with
      | none => rw [e3] at h; exact matchAtShort_shape h
      | some q =>
        obtain ⟨t2, rest2⟩ := q
        rw [e3] at h
        dsimp only at h
        simp only [Option.some.injEq, Prod.mk.injEq] at h
        obtain ⟨rfl, rfl⟩ := h
        refine ⟨(matchTime_eq_some e3).1, fun d2 hd2 => ?_⟩
        injection hd2 with hh
        subst hh
        exact (matchDateFull_eq_some e1).1

/-- Shapes produced by one match attempt. -/
theorem matchAt_shape {cs : List Char} {dopt : Option (List Char)} {t : List Char}
    (h : matchAt cs = some (dopt, t)) :
    timeShapeChars t = true ∧ ∀ d, dopt = some d → dateShapeChars d = true := by
  unfold matchAt at h
  cases cs with
  | nil => cases h
  | cons c rest =>
    dsimp only at h
    by_cases hc : c = '@'
    · rw [if_pos hc] at h
      exact matchAtFull_shape h
    · rw [if_neg hc] at h
      cases h

/-- Shapes produced by the scan. -/
theorem scanMarker_shape :
    ∀ (cs : List Char) {dopt : Option (List Char)} {t : List Char},
    scanMarker cs = some (dopt, t) →
    timeShapeChars t = true ∧ ∀ d, dopt = some d → dateShapeChars d = true := by
  intro cs
  induction cs with
  | nil => intro dopt t h; cases h
  | cons c rest ih =>
    intro dopt t h
    unfold scanMarker at h
    cases e1 : matchAt (c :: rest) with
    | none => rw [e1] at h; exact ih h
    | some p =>
      rw [e1] at h
      obtain ⟨d2, t2⟩ := p
      simp only [Option.some.injEq, Prod.mk.injEq] at h
      obtain ⟨rfl, rfl⟩ := h
      exact matchAt_shape e1

/-- A match attempt at a character other than `@` fails. -/
theorem matchAt_no_at {c : Char} (x : List Char) (hc : c ≠ '@') :
    matchAt (c :: x) = none := by
  unfold matchAt
  dsimp only
  rw [if_neg hc]

/-- One unfolding step of the scan. -/
theorem scanMarker_cons (c : Char) (l : List Char) :
    scanMarker (c :: l) =
      match matchAt (c :: l) with
      | some r => some r
      | none => scanMarker l := rfl

/-- The scan skips any `@`-free prefix. -/
theorem scanMarker_append_no_at :
    ∀ (a : List Char), (∀ c ∈ a, c ≠ '@') →
    ∀ (s : List Char), scanMarker (a ++ s) = scanMarker s := by
  intro a
  induction a with
  | nil => intro _ s; rfl
  | cons c a ih =>
    intro h s
    rw [List.cons_append, scanMarker_cons, matchAt_no_at _ (h c (by simp))]
    exact ih (fun x hx => h x (by simp [hx])) s

/-- At an `@` followed directly by `HH:MM`, both date alternatives fail
(the third character is `:` where they demand `.`) and the no-date
alternative captures exactly the five time characters, whatever follows. -/
theorem matchAt_time_only (h1 h2 m1 m2 : Char) (rest : List Char)
    (hd1 : h1.isDigit = true) (hd2 : h2.isDigit = true)
    (hm1 : m1.isDigit = true) (hm2 : m2.isDigit = true) :
    matchAt ('@' :: h1 :: h2 :: ':' :: m1 :: m2 :: rest) =
      some (none, [h1, h2, ':', m1, m2]) := by
  have htime : matchTime (h1 :: h2 :: ':' :: m1 :: m2 :: rest) =
      some ([h1, h2, ':', m1, m2], rest) := by
    simp [matchTime, takeDigit, takeChar, hd1, hd2, hm1, hm2]
  have hfull : matchDateFull (h1 :: h2 :: ':' :: m1 :: m2 :: rest) = none := by
    simp [matchDateFull, takeDigit, takeChar, hd1, hd2]
  have hshort : matchDateShort (h1 :: h2 :: ':' :: m1 :: m2 :: rest) = none := by
    simp [matchDateShort, takeDigit, takeChar, hd1, hd2]
  unfold matchAt
  dsimp only
  rw [if_pos rfl]
  simp only [matchAtFull, hfull, matchAtShort, hshort, matchAtTimeOnly, htime]

/-! ## Claim C6 -/

/-- Claim C6 (status: confirmed).  The marker parser requires the `HH:MM`
token (time shape always `\d\d:\d\d`), keeps the full original text as the
payload with the optional date of shape `DD.MM` or `DD.MM.YYYY`, returns
the no-event result when nothing matches, and in particular
`"@24.12 gift shopping"` (a date but no time token) does not match and is
routed to the help reply. -/
theorem c6_marker_grammar :
    (∀ (t : String) (e : Event), parse_event t = some e →
        e.text = t ∧ timeShape e.time = true ∧ ∀ d, e.date = some d → dateShape d = true) ∧
    parse_event "@24.12 gift shopping" = none ∧
    (∀ (today : LocalDate) (store : Store) (tid : Int) (uname : Option String),
        handle_message today store tid uname "@24.12 gift shopping" =
          (store, .sent helpReply)) := by
  refine ⟨fun t e h => ?_, rfl, fun today store tid uname => rfl⟩
  unfold parse_event at h
  cases hscan : scanMarker t.data with
  | none => rw [hscan] at h; cases h
  | some p =>
    obtain ⟨dopt, tc⟩ := p
    rw [hscan] at h
    dsimp only at h
    simp only [Option.some.injEq] at h
    subst h
    obtain ⟨hts, hds⟩ := scanMarker_shape t.data hscan
    refine ⟨rfl, hts, fun d hd => ?_⟩
    simp only [Option.map_eq_some'] at hd
    obtain ⟨d0, hd0, rfl⟩ := hd
    exact hds d0 hd0

/-- Witness for C6 on a concrete matching input. -/
theorem c6_marker_grammar_witness : timeShape "10:30" = true :=
  (c6_marker_grammar.1 "@10:30 x" ⟨"@10:30 x", "10:30", none⟩ (by rfl)).2.1

/-! ## Claim C10 -/

/-- Claim C10 (status: confirmed).  The time token need not end at a word
boundary: whenever the first `@` of the text is followed directly by
`HH:MM` and then further digits, the parse still succeeds, captures only
the five-character time prefix, leaves the date empty, and the trailing
digits stay inside the preserved payload (the payload is the whole
original text). -/
theorem c10_time_no_word_boundary (a : List Char) (h1 h2 m1 m2 : Char) (ds b : List Char)
    (ha : ∀ c ∈ a, c ≠ '@') (hd1 : h1.isDigit = true) (hd2 : h2.isDigit = true)
    (hm1 : m1.isDigit = true) (hm2 : m2.isDigit = true)
    (hds : ∀ c ∈ ds, c.isDigit = true) (hne : ds ≠ []) :
    parse_event ⟨a ++ '@' :: h1 :: h2 :: ':' :: m1 :: m2 :: (ds ++ b)⟩ =
      some ⟨⟨a ++ '@' :: h1 :: h2 :: ':' :: m1 :: m2 :: (ds ++ b)⟩,
            ⟨[h1, h2, ':', m1, m2]⟩, none⟩ := by
  unfold parse_event
  rw [show (⟨a ++ '@' :: h1 :: h2 :: ':' :: m1 :: m2 :: (ds ++ b)⟩ : String).data =
      a ++ '@' :: h1 :: h2 :: ':' :: m1 :: m2 :: (ds ++ b) from rfl]
  rw [scanMarker_append_no_at a ha ('@' :: h1 :: h2 :: ':' :: m1 :: m2 :: (ds ++ b))]
  rw [scanMarker_cons, matchAt_time_only h1 h2 m1 m2 (ds ++ b) hd1 hd2 hm1 hm2]
  rfl

/-- Witness for C10 at the concrete input of the claim. -/
theorem c10_time_no_word_boundary_witness :
    parse_event "@12:345 call" = some ⟨"@12:345 call", "12:34", none⟩ := by
  have h := c10_time_no_word_boundary [] '1' '2' '3' '4' ['5'] (" call".data)
    (by simp) (by decide) (by decide) (by decide) (by decide)
    (by intro c hc; simp at hc; subst hc; decide) (by decide)
  exact h

/-! ## Timestamp-resolver lemmas (shared by C5) -/

/-- A decimal digit character is in the regex class `\d`. -/
theorem digitChar_isDigit {k : Nat} (h : k < 10) : (Nat.digitChar k).isDigit = true := by
  interval_cases k <;> decide

/-- Numeric value of a decimal digit character. -/
theorem digitChar_toNat {k : Nat} (h : k < 10) : (Nat.digitChar k).toNat = 48 + k := by
  interval_cases k <;> decide

/-- A decimal digit character is not the date separator. -/
theorem digitChar_beq_dot {k : Nat} (h : k < 10) : (Nat.digitChar k == '.') = false := by
  interval_cases k <;> decide

/-- Code-point bounds of a digit character. -/
theorem isDigit_toNat_le {c : Char} (h : c.isDigit = true) : 48 ≤ c.toNat ∧ c.toNat ≤ 57 := by
  simp [Char.isDigit] at h
  obtain ⟨h1, h2⟩ := h
  exact ⟨h1, h2⟩

/-- One unfolding step of the decimal rendering loop in core. -/
theorem toDigitsCore_step (b : Nat) (fuel n : Nat) (ds : List Char) :
    Nat.toDigitsCore b (fuel + 1) n ds =
      if n / b = 0 then Nat.digitChar (n % b) :: ds
      else Nat.toDigitsCore b fuel (n / b) (Nat.digitChar (n % b) :: ds) := by
  rfl

/-- Rendering step for a number of two or more digits. -/
theorem tdc_step_ne (n fuel : Nat) (ds : List Char) (h : 10 ≤ n) :
    Nat.toDigitsCore 10 (fuel + 1) n ds =
      Nat.toDigitsCore 10 fuel (n / 10) (Nat.digitChar (n % 10) :: ds) := by
  rw [toDigitsCore_step, if_neg (by omega)]

/-- Rendering step for the leading digit. -/
theorem tdc_last (n fuel : Nat) (ds : List Char) (h0 : 0 < n) (h1 : n < 10) :
    Nat.toDigitsCore 10 (fuel + 1) n ds = Nat.digitChar n :: ds := by
  rw [toDigitsCore_step, if_pos (by omega), Nat.mod_eq_of_lt h1]

/-- Decimal rendering of a four-digit number. -/
theorem toDigitsCore_four (y : Nat) (h1 : 1000 ≤ y) (h2 : y < 10000) (f : Nat) (ds : List Char) :
    Nat.toDigitsCore 10 (f + 4) y ds = pad4 y ++ ds := by
  rw [show f + 4 = (f + 3) + 1 from rfl, tdc_step_ne y (f + 3) ds (by omega)]
  rw [show f + 3 = (f + 2) + 1 from rfl, tdc_step_ne (y / 10) (f + 2) _ (by omega)]
  rw [show f + 2 = (f + 1) + 1 from rfl, tdc_step_ne (y / 10 / 10) (f + 1) _ (by omega)]
  rw [tdc_last (y / 10 / 10 / 10) f _ (by omega) (by omega)]
  have e1 : y / 10 / 10 / 10 = y / 1000 := by omega
  have e2 : y / 10 / 10 % 10 = y / 100 % 10 := by omega
  rw [e1, e2]
  simp [pad4]

/-- `format!("{}", year)` (the `Display` of the current year in
`save_event`) prints exactly the four zero-free digits of a four-digit
year. -/
theorem toString_eq_pad4 (y : Nat) (hy1 : 1000 ≤ y) (hy2 : y < 10000) :
    (toString y).data = pad4 y := by
  show (Nat.repr y).data = pad4 y
  unfold Nat.repr
  show (Nat.toDigits 10 y).asString.data = pad4 y
  rw [show ∀ l : List Char, (List.asString l).data = l from fun l => rfl]
  unfold Nat.toDigits
  obtain ⟨f, hf⟩ : ∃ f, y + 1 = f + 4 := ⟨y - 3, by omega⟩
  rw [hf, toDigitsCore_four y hy1 hy2 f []]
  simp

/-- Parsing two rendered digits recovers the value. -/
theorem parse2_pad2 (n : Nat) (h : n < 100) (rest : List Char) :
    parse2 (pad2 n ++ rest) = some (n, rest) := by
  have h1 : n / 10 < 10 := by omega
  have h2 : n % 10 < 10 := by omega
  have hv : 10 * ((Nat.digitChar (n / 10)).toNat - 48) +
      ((Nat.digitChar (n % 10)).toNat - 48) = n := by
    rw [digitChar_toNat h1, digitChar_toNat h2]; omega
  simp [parse2, pad2, takeDigit, digitChar_isDigit h1, digitChar_isDigit h2, hv]

/-- Parsing four rendered digits recovers the value. -/
theorem parse4_pad4 (y : Nat) (h : y < 10000) (rest : List Char) :
    parse4 (pad4 y ++ rest) = some (y, rest) := by
  have e1 : pad4 y ++ rest = pad2 (y / 100) ++ (pad2 (y % 100) ++ rest) := by
    have a1 : y / 100 / 10 = y / 1000 := by omega
    have a3 : y % 100 / 10 = y / 10 % 10 := by omega
    have a4 : y % 100 % 10 = y % 10 := by omega
    simp [pad4, pad2, a1, a3, a4]
  have hv : 100 * (y / 100) + y % 100 = y := by omega
  rw [e1]
  simp [parse4, parse2_pad2 (y / 100) (by omega), parse2_pad2 (y % 100) (by omega), hv]

/-- No month is longer than 31 days. -/
theorem daysInMonth_le (mo y : Nat) : daysInMonth mo y ≤ 31 := by
  unfold daysInMonth
  split
  · split <;> omega
  · split <;> omega

/-- The strict-layout parse accepts exactly the rendered form of a valid
calendar date and time, recovering the field values. -/
theorem parseDateTimeChars_roundtrip (d mo y h mi : Nat)
    (hmo1 : 1 ≤ mo) (hmo2 : mo ≤ 12) (hd1 : 1 ≤ d) (hd2 : d ≤ daysInMonth mo y)
    (hy : y < 10000) (hh : h ≤ 23) (hmi : mi ≤ 59) :
    parseDateTimeChars (pad2 d ++ '.' :: pad2 mo ++ '.' :: pad4 y ++ ' ' :: pad2 h ++
      ':' :: pad2 mi ++ [':', '0', '0']) = some ⟨d, mo, y, h, mi, 0⟩ := by
  have hd100 : d < 100 := by have := daysInMonth_le mo y; omega
  have h00 : parse2 ['0', '0'] = some (0, []) := rfl
  have tcs : ∀ (c : Char) (r : List Char), takeChar c (c :: r) = some r := by
    intro c r; simp [takeChar]
  unfold parseDateTimeChars
  simp only [bind, Option.bind_eq_some, pure]
  refine ⟨(d, _), parse2_pad2 d hd100 _, _, tcs '.' _, (mo, _), parse2_pad2 mo (by omega) _,
    _, tcs '.' _, (y, _), parse4_pad4 y hy _, _, tcs ' ' _, (h, _), parse2_pad2 h (by omega) _,
    _, tcs ':' _, (mi, _), parse2_pad2 mi (by omega) _, _, tcs ':' _, (0, []), h00, ?_⟩
  rw [if_pos ⟨rfl, hmo1, hmo2, hd1, hd2, hh, hmi, by omega⟩]

/-- The value of two parsed digits is below 100. -/
theorem parse2_lt {cs : List Char} {n : Nat} {r : List Char}
    (h : parse2 cs = some (n, r)) : n < 100 := by
  unfold parse2 at h
  simp only [bind, Option.bind_eq_some, pure, Option.some.injEq] at h
  obtain ⟨⟨a, r1⟩, e1, ⟨b, r2⟩, e2, h⟩ := h
  obtain ⟨-, ha⟩ := takeDigit_eq_some e1
  obtain ⟨-, hb⟩ := takeDigit_eq_some e2
  obtain ⟨rfl, rfl⟩ := Prod.mk.injEq .. ▸ h
  obtain ⟨ha1, ha2⟩ := isDigit_toNat_le ha
  obtain ⟨hb1, hb2⟩ := isDigit_toNat_le hb
  dsimp only
  omega

/-- The value of four parsed digits is below 10000. -/
theorem parse4_lt {cs : List Char} {n : Nat} {r : List Char}
    (h : parse4 cs = some (n, r)) : n < 10000 := by
  unfold parse4 at h
  simp only [bind, Option.bind_eq_some, pure, Option.some.injEq] at h
  obtain ⟨⟨a, r1⟩, e1, ⟨b, r2⟩, e2, h⟩ := h
  have ha := parse2_lt e1
  have hb := parse2_lt e2
  obtain ⟨rfl, rfl⟩ := Prod.mk.injEq .. ▸ h
  dsimp only
  omega

/-- Field bounds of any successfully parsed datetime. -/
theorem parseDateTimeChars_bounds {cs : List Char} {dt : DateTime}
    (h : parseDateTimeChars cs = some dt) :
    dt.day < 100 ∧ dt.month < 100 ∧ dt.year < 10000 ∧ dt.hour < 100 ∧ dt.minute < 100 := by
  unfold parseDateTimeChars at h
  simp only [bind, Option.bind_eq_some, pure] at h
  obtain ⟨⟨d, cs1⟩, e1, cs2, e2, ⟨mo, cs3⟩, e3, cs4, e4, ⟨y, cs5⟩, e5, cs6, e6,
    ⟨hh, cs7⟩, e7, cs8, e8, ⟨mi, cs9⟩, e9, cs10, e10, ⟨s, cs11⟩, e11, h⟩ := h
  have hy := parse4_lt e5
  split at h
  · rename_i hcond
    obtain ⟨-, hmo1, hmo2, hd1, hd2, hhh, hmi2, -⟩ := hcond
    cases h
    have hdm := daysInMonth_le mo y
    dsimp only at hd2 hmo2 hhh hmi2 ⊢
    exact ⟨by omega, by omega, hy, by omega, by omega⟩
  · cases h

/-- The minute-granularity rendering of a parsed datetime has the
`DD.MM.YYYY HH:MM` shape. -/
theorem isMinuteFormat_renderMinute (dt : DateTime) (hd : dt.day < 100) (hmo : dt.month < 100)
    (hy : dt.year < 10000) (hh : dt.hour < 100) (hmi : dt.minute < 100) :
    isMinuteFormat (renderMinute dt) = true := by
  simp [isMinuteFormat, renderMinute, pad2, pad4,
    digitChar_isDigit (show dt.day / 10 < 10 by omega),
    digitChar_isDigit (show dt.day % 10 < 10 by omega),
    digitChar_isDigit (show dt.month / 10 < 10 by omega),
    digitChar_isDigit (show dt.month % 10 < 10 by omega),
    digitChar_isDigit (show dt.year / 1000 < 10 by omega),
    digitChar_isDigit (show dt.year / 100 % 10 < 10 by omega),
    digitChar_isDigit (show dt.year / 10 % 10 < 10 by omega),
    digitChar_isDigit (show dt.year % 10 < 10 by omega),
    digitChar_isDigit (show dt.hour / 10 < 10 by omega),
    digitChar_isDigit (show dt.hour % 10 < 10 by omega),
    digitChar_isDigit (show dt.minute / 10 < 10 by omega),
    digitChar_isDigit (show dt.minute % 10 < 10 by omega)]

/-- Dot count of a rendered `DD.MM` date. -/
theorem count_dot_short (d m : Nat) (hd : d < 100) (hm : m < 100) :
    (pad2 d ++ '.' :: pad2 m).count '.' = 1 := by
  simp [pad2, List.count_cons, List.count_append,
    digitChar_beq_dot (show d / 10 < 10 by omega),
    digitChar_beq_dot (show d % 10 < 10 by omega),
    digitChar_beq_dot (show m / 10 < 10 by omega),
    digitChar_beq_dot (show m % 10 < 10 by omega)]

/-- Dot count of a rendered `DD.MM.YYYY` date. -/
theorem count_dot_full (d m y : Nat) (hd : d < 100) (hm : m < 100) (hy : y < 10000) :
    (pad2 d ++ '.' :: pad2 m ++ '.' :: pad4 y).count '.' = 2 := by
  simp [pad2, pad4, List.count_cons, List.count_append,
    digitChar_beq_dot (show d / 10 < 10 by omega),
    digitChar_beq_dot (show d % 10 < 10 by omega),
    digitChar_beq_dot (show m / 10 < 10 by omega),
    digitChar_beq_dot (show m % 10 < 10 by omega),
    digitChar_beq_dot (show y / 1000 < 10 by omega),
    digitChar_beq_dot (show y / 100 % 10 < 10 by omega),
    digitChar_beq_dot (show y / 10 % 10 < 10 by omega),
    digitChar_beq_dot (show y % 10 < 10 by omega)]

/-! ## Claim C5 -/

/-- Claim C5 (status: confirmed).  The resolved timestamp composes as
specified: with no date the current local calendar date is used; with a
`DD.MM` date the current local year is appended; with a `DD.MM.YYYY` date
it is used as given.  Whenever an event is stored, its timestamp is the
minute-granularity rendering `DD.MM.YYYY HH:MM` with no seconds.  In
particular `"@09:30 dentist"` at local date 2024-05-01 stores text
`"@09:30 dentist"` with timestamp `"01.05.2024 09:30"`. -/
theorem c5_timestamp_resolution :
    (∀ (today : LocalDate) (store : Store) (uid : Nat) (txt : String) (h mi : Nat),
      validDate today → today.year < 10000 → h ≤ 23 → mi ≤ 59 →
      save_event today store uid ⟨txt, ⟨pad2 h ++ ':' :: pad2 mi⟩, none⟩ =
        .ok (insertEvent store uid txt
          ⟨pad2 today.day ++ '.' :: pad2 today.month ++ '.' :: pad4 today.year ++
            ' ' :: pad2 h ++ ':' :: pad2 mi⟩)) ∧
    (∀ (today : LocalDate) (store : Store) (uid : Nat) (txt : String) (d m h mi : Nat),
      1000 ≤ today.year → today.year < 10000 → 1 ≤ m → m ≤ 12 → 1 ≤ d →
      d ≤ daysInMonth m today.year → h ≤ 23 → mi ≤ 59 →
      save_event today store uid
          ⟨txt, ⟨pad2 h ++ ':' :: pad2 mi⟩, some ⟨pad2 d ++ '.' :: pad2 m⟩⟩ =
        .ok (insertEvent store uid txt
          ⟨pad2 d ++ '.' :: pad2 m ++ '.' :: pad4 today.year ++
            ' ' :: pad2 h ++ ':' :: pad2 mi⟩)) ∧
    (∀ (today : LocalDate) (store : Store) (uid : Nat) (txt : String) (d m y h mi : Nat),
      y < 10000 → 1 ≤ m → m ≤ 12 → 1 ≤ d → d ≤ daysInMonth m y → h ≤ 23 → mi ≤ 59 →
      save_event today store uid
          ⟨txt, ⟨pad2 h ++ ':' :: pad2 mi⟩, some ⟨pad2 d ++ '.' :: pad2 m ++ '.' :: pad4 y⟩⟩ =
        .ok (insertEvent store uid txt
          ⟨pad2 d ++ '.' :: pad2 m ++ '.' :: pad4 y ++ ' ' :: pad2 h ++ ':' :: pad2 mi⟩)) ∧
    (∀ (today : LocalDate) (store : Store) (uid : Nat) (ev : Event) (store2 : Store),
      save_event today store uid ev = .ok store2 →
      ∃ ts, store2 = insertEvent store uid ev.text ts ∧ isMinuteFormat ts = true) ∧
    (∀ (store : Store) (uid : Nat),
      save_event ⟨1, 5, 2024⟩ store uid ⟨"@09:30 dentist", "09:30", none⟩ =
        .ok (insertEvent store uid "@09:30 dentist" "01.05.2024 09:30")) := by
  refine ⟨?_, ?_, ?_, ?_, fun store uid => rfl⟩
  · intro today store uid txt h mi hval hy hh hmi
    obtain ⟨hm1, hm2, hd1, hd2⟩ := hval
    have hdata : (compose_event_time today
        ⟨txt, ⟨pad2 h ++ ':' :: pad2 mi⟩, none⟩ ++ ":00").data =
        pad2 today.day ++ '.' :: pad2 today.month ++ '.' :: pad4 today.year ++
          ' ' :: pad2 h ++ ':' :: pad2 mi ++ [':', '0', '0'] := by
      show ((renderLocalDate today ++ " " ++
          (⟨pad2 h ++ ':' :: pad2 mi⟩ : String)) ++ ":00").data = _
      simp [renderLocalDate, String.data_append,
        show (" " : String).data = [' '] from rfl,
        show (":00" : String).data = [':', '0', '0'] from rfl]
    simp only [save_event]
    rw [hdata, parseDateTimeChars_roundtrip today.day today.month today.year h mi
      hm1 hm2 hd1 hd2 hy hh hmi]
    rfl
  · intro today store uid txt d m h mi hy1 hy2 hm1 hm2 hd1 hd2 hh hmi
    have hd100 : d < 100 := by have := daysInMonth_le m today.year; omega
    have hcount : ((⟨pad2 d ++ '.' :: pad2 m⟩ : String)).data.count '.' = 1 :=
      count_dot_short d m hd100 (by omega)
    have hcomp : compose_event_time today ⟨txt, ⟨pad2 h ++ ':' :: pad2 mi⟩,
        some ⟨pad2 d ++ '.' :: pad2 m⟩⟩ =
        (⟨pad2 d ++ '.' :: pad2 m⟩ : String) ++ "." ++ toString today.year ++ " " ++
          (⟨pad2 h ++ ':' :: pad2 mi⟩ : String) := by
      unfold compose_event_time
      dsimp only
      rw [if_pos hcount]
    have hdata : (compose_event_time today ⟨txt, ⟨pad2 h ++ ':' :: pad2 mi⟩,
        some ⟨pad2 d ++ '.' :: pad2 m⟩⟩ ++ ":00").data =
        pad2 d ++ '.' :: pad2 m ++ '.' :: pad4 today.year ++
          ' ' :: pad2 h ++ ':' :: pad2 mi ++ [':', '0', '0'] := by
      rw [hcomp]
      simp [String.data_append, toString_eq_pad4 today.year hy1 hy2,
        show ("." : String).data = ['.'] from rfl,
        show (" " : String).data = [' '] from rfl,
        show (":00" : String).data = [':', '0', '0'] from rfl]
    simp only [save_event]
    rw [hdata, parseDateTimeChars_roundtrip d m today.year h mi hm1 hm2 hd1 hd2 hy2 hh hmi]
    rfl
  · intro today store uid txt d m y h mi hy2 hm1 hm2 hd1 hd2 hh hmi
    have hd100 : d < 100 := by have := daysInMonth_le m y; omega
    have hcount : ((⟨pad2 d ++ '.' :: pad2 m ++ '.' :: pad4 y⟩ : String)).data.count '.' = 2 :=
      count_dot_full d m y hd100 (by omega) hy2
    have hcomp : compose_event_time today ⟨txt, ⟨pad2 h ++ ':' :: pad2 mi⟩,
        some ⟨pad2 d ++ '.' :: pad2 m ++ '.' :: pad4 y⟩⟩ =
        (⟨pad2 d ++ '.' :: pad2 m ++ '.' :: pad4 y⟩ : String) ++ " " ++
          (⟨pad2 h ++ ':' :: pad2 mi⟩ : String) := by
      unfold compose_event_time
      dsimp only
      rw [if_neg (by intro hcon; rw [hcount] at hcon; exact absurd hcon (by omega))]
    have hdata : (compose_event_time today ⟨txt, ⟨pad2 h ++ ':' :: pad2 mi⟩,
        some ⟨pad2 d ++ '.' :: pad2 m ++ '.' :: pad4 y⟩⟩ ++ ":00").data =
        pad2 d ++ '.' :: pad2 m ++ '.' :: pad4 y ++
          ' ' :: pad2 h ++ ':' :: pad2 mi ++ [':', '0', '0'] := by
      rw [hcomp]
      simp [String.data_append,
        show (" " : String).data = [' '] from rfl,
        show (":00" : String).data = [':', '0', '0'] from rfl]
    simp only [save_event]
    rw [hdata, parseDateTimeChars_roundtrip d m y h mi hm1 hm2 hd1 hd2 hy2 hh hmi]
    rfl
  · intro today store uid ev store2 hsave
    simp only [save_event] at hsave
    cases hp : parseDateTimeChars ((compose_event_time today ev ++ ":00")).data with
    | none => rw [hp] at hsave; cases hsave
    | some dt =>
      rw [hp] at hsave
      cases hsave
      obtain ⟨b1, b2, b3, b4, b5⟩ := parseDateTimeChars_bounds hp
      exact ⟨renderMinute dt, rfl, isMinuteFormat_renderMinute dt b1 b2 b3 b4 b5⟩

/-- Witness for C5: the date-absent resolution applied at a concrete local
date and time. -/
theorem c5_timestamp_resolution_witness :
    save_event ⟨1, 5, 2024⟩ emptyStore 1 ⟨"x", ⟨pad2 9 ++ ':' :: pad2 30⟩, none⟩ =
      .ok (insertEvent emptyStore 1 "x"
        ⟨pad2 1 ++ '.' :: pad2 5 ++ '.' :: pad4 2024 ++ ' ' :: pad2 9 ++ ':' :: pad2 30⟩) :=
  c5_timestamp_resolution.1 ⟨1, 5, 2024⟩ emptyStore 1 "x" 9 30
    (by decide) (by decide) (by decide) (by decide)

/-! ## Claim C9 -/

/-- Counterexample for C9.  A user with exactly one stored event gets a
reply that is not the bare one-line listing the claim describes: the code
prepends the header line, so the reply has a newline (two lines) and
differs from the single formatted line. -/
theorem c9_listing_counterexample :
    (⟨[⟨1, 7, none⟩], [⟨1, 1, "dentist", "01.05.2024 09:30"⟩], 2, 2⟩ : Store).events.length = 1 ∧
    (handle_message ⟨1, 5, 2024⟩
        ⟨[⟨1, 7, none⟩], [⟨1, 1, "dentist", "01.05.2024 09:30"⟩], 2, 2⟩ 7 none "/events").2 =
      .sent ("Ваши события:\n" ++ "1. 01.05.2024 09:30 - dentist") ∧
    ("Ваши события:\n" ++ "1. 01.05.2024 09:30 - dentist" : String).data.count '\n' = 1 ∧
    Reply.sent ("Ваши события:\n" ++ "1. 01.05.2024 09:30 - dentist") ≠
      Reply.sent "1. 01.05.2024 09:30 - dentist" := by
  refine ⟨rfl, rfl, by decide, by decide⟩

/-- Claim C9 (status: corrected).  Amended claim: the `/events` listing
path replies with the fixed "no events" message when the user has zero
stored events, and otherwise replies with the fixed header line followed
by exactly N newline-joined lines for the user's N stored events, the
n-th line 1-indexed and formatted `"{n}. {timestamp} - {text}"`, in
ascending order of the stored timestamp string. -/
theorem c9_listing_amended (today : LocalDate) (store : Store) (tid : Int)
    (uname : Option String) :
    (get_user_events store tid).length = store.events.countP (ownedBy store tid) ∧
    List.Sorted (fun a b : UserEvent => a.event_time ≤ b.event_time)
      (get_user_events store tid) ∧
    (get_user_events store tid = [] →
      (handle_message today store tid uname "/events").2 = .sent noEventsReply) ∧
    (get_user_events store tid ≠ [] →
      (handle_message today store tid uname "/events").2 =
        .sent (eventsHeader ++
          String.intercalate "\n"
            ((get_user_events store tid).enum.map (fun p => listingLine p.1 p.2))) ∧
      ((get_user_events store tid).enum.map (fun p => listingLine p.1 p.2)).length =
        store.events.countP (ownedBy store tid)) := by
  have hlen : (get_user_events store tid).length = store.events.countP (ownedBy store tid) := by
    unfold get_user_events
    rw [(List.perm_insertionSort _ _).length_eq, List.length_map,
      ← List.countP_eq_length_filter]
  refine ⟨hlen, List.sorted_insertionSort _ _, fun hempty => ?_, fun hne => ?_⟩
  · simp [handle_message, hempty]
  · have hfalse : (get_user_events store tid).isEmpty = false :=
      List.isEmpty_eq_false.mpr hne
    constructor
    · simp [handle_message, hfalse, listingBody]
    · rw [List.length_map, List.enum_length]
      exact hlen

/-- Witness for C9's amended claim at a concrete one-event store. -/
theorem c9_listing_amended_witness :
    (handle_message ⟨1, 5, 2024⟩
        ⟨[⟨1, 7, none⟩], [⟨1, 1, "dentist", "01.05.2024 09:30"⟩], 2, 2⟩ 7 none "/events").2 =
      .sent (eventsHeader ++
        String.intercalate "\n"
          ((get_user_events
              ⟨[⟨1, 7, none⟩], [⟨1, 1, "dentist", "01.05.2024 09:30"⟩], 2, 2⟩ 7).enum.map
            (fun p => listingLine p.1 p.2))) :=
  ((c9_listing_amended ⟨1, 5, 2024⟩
      ⟨[⟨1, 7, none⟩], [⟨1, 1, "dentist", "01.05.2024 09:30"⟩], 2, 2⟩ 7 none).2.2.2
    (by
      intro h
      rw [show get_user_events
          ⟨[⟨1, 7, none⟩], [⟨1, 1, "dentist", "01.05.2024 09:30"⟩], 2, 2⟩ 7 =
          [⟨"dentist", "01.05.2024 09:30"⟩] from rfl] at h
      exact absurd h (by simp))).1
